import Mathlib

/-!
Verification of the consensus recommendation engine of the work-tracking
repository (services/llm-service.ts and services/grooming-service.ts).

The TypeScript code is shallowly embedded: the external oracle (an LLM
reached through `generateText`) is modelled by explicit per-call outcomes
passed as arguments, and every function of the engine that manipulates those
outcomes is translated into an executable Lean definition.  Each engine
function also reports the number of oracle calls it performs, so that claims
about "no oracle invocation" and "exactly one additional call" are statable.

JavaScript specifics that matter are modelled explicitly:
  * `Map` iteration follows insertion order; `map.set` on an existing key
    keeps its position (`bumpVote` / the `insKey` key-order function);
  * `new Map(list)` lookup keeps the last binding of a key (`jsMapGet`);
  * `x || d` falls back on the empty string ( `jsOrElse` / `strTruthy`).
-/

namespace WorkTracking

/-- A historical work record (`ProcessedIssue` in types/index.ts); only the
fields read by the grooming engine are carried. -/
structure ProcessedIssue where
  ticketId : String
  summary : String
  assignee : String
  status : String
  description : String
  labels : List String
  components : List String
  parent : Option String
  parentSummary : Option String
deriving Repr, DecidableEq

/-- A unit of work pending assignment (`GroomingTicket` in types/index.ts). -/
structure GroomingTicket where
  ticketKey : String
  category : String
  summary : String
  description : String
  labels : List String
  components : List String
  parent : Option String
  parentSummary : Option String
deriving Repr, DecidableEq

/-- One candidate assignee (`EngineerProfile` in types/index.ts). -/
structure EngineerProfile where
  name : String
  email : String
  recentTickets : List ProcessedIssue
  currentWorkload : Nat
  specializations : List String
deriving Repr, DecidableEq

/-- Evidence that an engineer worked on siblings of a ticket's epic
(`EpicContinuitySignal` in types/index.ts). -/
structure EpicContinuitySignal where
  ticketKey : String
  epicKey : String
  epicSummary : Option String
  engineerName : String
  siblingCount : Nat
  siblingTickets : List String
deriving Repr, DecidableEq

/-- The final output per ticket (`AssignmentRecommendation` in
types/index.ts); `reasoning` and `confidence` are the optional fields. -/
structure AssignmentRecommendation where
  ticketKey : String
  category : String
  summary : String
  recommendedEngineer : String
  reasoning : Option String
  confidence : Option String
deriving Repr, DecidableEq

/-- One element of the JSON array the oracle is asked to return
(`parsed` in `parseAssignmentResponse`). -/
structure ParsedItem where
  ticketKey : String
  recommendedEngineer : String
  reasoning : Option String
deriving Repr, DecidableEq

/-- JavaScript truthiness of a `string | null` value: `null` and `""` are
falsy.  Used for `tickets.filter((t) => t.parent)`. -/
def strTruthy : Option String → Bool
  | none => false
  | some s => s != ""

/-- JavaScript `x || d` on a `string | undefined` value: `undefined` and the
empty string fall back to the default. -/
def jsOrElse : Option String → String → String
  | none, d => d
  | some s, d => if s == "" then d else s

/-- Lookup in `new Map(originalTickets.map((t) => [t.ticketKey, t]))`:
for duplicate keys, the map keeps the last binding. -/
def jsMapGet (tickets : List GroomingTicket) (key : String) :
    Option GroomingTicket :=
  tickets.foldl (fun acc t => if t.ticketKey == key then some t else acc) none

/-- Lookup in `new Map(reasonings.map((r) => [r.ticketKey, r.reasoning]))`:
last binding of a key wins. -/
def jsStrMapGet (entries : List (String × String)) (key : String) :
    Option String :=
  entries.foldl (fun acc e => if e.1 == key then some e.2 else acc) none

/-- `parseAssignmentResponse` (llm-service.ts, lines 772-826).  The JSON
parsing of the raw text is abstracted: `response = some items` models a
response whose markdown-stripped body parses to the array `items`, and
`response = none` models any response for which `JSON.parse` (or mapping
over the parsed value) throws.  On success, one recommendation per parsed
item is returned, with category and summary looked up in the original
tickets; on failure the catch block returns one "Unable to determine"
recommendation per original ticket. -/
def parseAssignmentResponse (response : Option (List ParsedItem))
    (originalTickets : List GroomingTicket) (verbose : Bool) :
    List AssignmentRecommendation :=
  match response with
  | some parsed =>
      parsed.map fun item =>
        let originalTicket := jsMapGet originalTickets item.ticketKey
        { ticketKey := item.ticketKey
          category := jsOrElse (originalTicket.map (fun t => t.category)) "Unknown"
          summary := jsOrElse (originalTicket.map (fun t => t.summary)) ""
          recommendedEngineer := item.recommendedEngineer
          reasoning := if verbose then item.reasoning else none
          confidence := none }
  | none =>
      originalTickets.map fun t =>
        { ticketKey := t.ticketKey
          category := t.category
          summary := t.summary
          recommendedEngineer := "Unable to determine"
          reasoning := if verbose then some "Failed to parse LLM response" else none
          confidence := none }

/-- The fate of one oracle call inside the trial fan-out:
`failure` models `generateText` rejecting (caught by `.catch(() => [])`),
`response r` models text coming back whose parse outcome is `r`. -/
inductive TrialOutcome where
  | failure : TrialOutcome
  | response : Option (List ParsedItem) → TrialOutcome
deriving Repr, DecidableEq

/-- What one trial of `generateConsensusRecommendations` contributes to
`allTrialResults`: the `.then` branch parses with `verbose = false`, the
`.catch` branch yields the empty array. -/
def runTrial (tickets : List GroomingTicket) :
    TrialOutcome → List AssignmentRecommendation
  | TrialOutcome.failure => []
  | TrialOutcome.response r => parseAssignmentResponse r tickets false

/-- `validTrials = allTrialResults.filter((t) => t.length > 0)`
(llm-service.ts, line 331). -/
def validTrialsOf (tickets : List GroomingTicket)
    (outcomes : List TrialOutcome) : List (List AssignmentRecommendation) :=
  (outcomes.map (runTrial tickets)).filter (fun t => decide (0 < t.length))

/-- `votes.set(name, (votes.get(name) || 0) + 1)` on a JavaScript `Map`
represented as its insertion-ordered entry list: the first entry holding the
key is incremented in place, a missing key is appended with count 1. -/
def bumpVote : List (String × Nat) → String → List (String × Nat)
  | [], name => [(name, 1)]
  | (n, c) :: rest, name =>
      if n == name then (n, c + 1) :: rest else (n, c) :: bumpVote rest name

/-- The vote-counting loop of `aggregateTrialResults` (llm-service.ts,
lines 380-388) for one ticket key: each trial's first recommendation
matching the ticket bumps that engineer's vote. -/
def tallyVotes (ticketKey : String)
    (trials : List (List AssignmentRecommendation)) : List (String × Nat) :=
  trials.foldl
    (fun votes trial =>
      match trial.find? (fun r => r.ticketKey == ticketKey) with
      | some rec => bumpVote votes rec.recommendedEngineer
      | none => votes)
    []

/-- The winner-selection loop of `aggregateTrialResults` (llm-service.ts,
lines 390-399): scan the vote map in insertion order, keeping the first
entry that strictly exceeds the best count so far, starting from
("Unable to determine", 0). -/
def pickWinner (votes : List (String × Nat)) : String × Nat :=
  votes.foldl (fun acc e => if e.2 > acc.2 then e else acc)
    ("Unable to determine", 0)

/-- `aggregateTrialResults` (llm-service.ts, lines 367-411). -/
def aggregateTrialResults (originalTickets : List GroomingTicket)
    (trials : List (List AssignmentRecommendation)) (totalTrials : Nat) :
    List AssignmentRecommendation :=
  originalTickets.map fun ticket =>
    let w := pickWinner (tallyVotes ticket.ticketKey trials)
    let originalTicket := jsMapGet originalTickets ticket.ticketKey
    { ticketKey := ticket.ticketKey
      category := jsOrElse (originalTicket.map (fun t => t.category)) "Unknown"
      summary := jsOrElse (originalTicket.map (fun t => t.summary)) ""
      recommendedEngineer := w.1
      reasoning := none
      confidence := some (toString w.2 ++ "/" ++ toString totalTrials) }

/-- `addConsensusReasoning` (llm-service.ts, lines 416-500).  The single
reasoning call is modelled by its outcome: `none` when the call or the JSON
parse of its response fails (the catch block returns the input unchanged),
`some entries` when it yields `ticketKey`/`reasoning` pairs.  The merge is
`reasoningMap.get(rec.ticketKey) || undefined`, so an empty reasoning string
also becomes `undefined`. -/
def addConsensusReasoning (consensusResults : List AssignmentRecommendation)
    (reasoningCall : Option (List (String × String))) :
    List AssignmentRecommendation :=
  match reasoningCall with
  | none => consensusResults
  | some reasonings =>
      consensusResults.map fun rec =>
        { rec with
          reasoning :=
            match jsStrMapGet reasonings rec.ticketKey with
            | some s => if s == "" then none else some s
            | none => none }

/-- `generateAssignmentRecommendations` (llm-service.ts, lines 257-281).
The single oracle call is modelled by `oracleCall`: `Except.error ()` when
`generateText` rejects (the rejection propagates, there is no catch), and
`Except.ok r` when it resolves with text whose parse outcome is `r`.
The second component counts the oracle calls performed. -/
def generateAssignmentRecommendations (ticketsToGroom : List GroomingTicket)
    (engineerProfiles : List EngineerProfile) (verbose : Bool)
    (epicSignals : List EpicContinuitySignal)
    (oracleCall : Except Unit (Option (List ParsedItem))) :
    Except Unit (List AssignmentRecommendation) × Nat :=
  if ticketsToGroom.length == 0 then (Except.ok [], 0)
  else
    match oracleCall with
    | Except.error e => (Except.error e, 1)
    | Except.ok r =>
        (Except.ok (parseAssignmentResponse r ticketsToGroom verbose), 1)

/-- `generateConsensusRecommendations` (llm-service.ts, lines 293-362).
The `numTrials` parallel oracle calls are modelled by the list
`trialOutcomes` (one outcome per fired trial, so `trialOutcomes.length` is
the requested trial count N); `fallbackCall` is the outcome of the
all-trials-failed fallback call, and `reasoningCall` the outcome of the
verbose reasoning call — each is consumed only on the code path that
performs it.  The second component counts the oracle calls performed. -/
def generateConsensusRecommendations (ticketsToGroom : List GroomingTicket)
    (engineerProfiles : List EngineerProfile) (verbose : Bool)
    (epicSignals : List EpicContinuitySignal)
    (trialOutcomes : List TrialOutcome)
    (fallbackCall : Except Unit (Option (List ParsedItem)))
    (reasoningCall : Option (List (String × String))) :
    Except Unit (List AssignmentRecommendation) × Nat :=
  if ticketsToGroom.length == 0 then (Except.ok [], 0)
  else
    let validTrials := validTrialsOf ticketsToGroom trialOutcomes
    let totalValidTrials := validTrials.length
    if totalValidTrials == 0 then
      let fb := generateAssignmentRecommendations ticketsToGroom
        engineerProfiles verbose epicSignals fallbackCall
      (fb.1, trialOutcomes.length + fb.2)
    else
      let consensusResults :=
        aggregateTrialResults ticketsToGroom validTrials totalValidTrials
      if verbose then
        (Except.ok (addConsensusReasoning consensusResults reasoningCall),
          trialOutcomes.length + 1)
      else
        (Except.ok consensusResults, trialOutcomes.length)

/-- The engineer's sibling tickets under an epic
(grooming-service.ts, lines 134-136): recent tickets whose parent strictly
equals the epic key and whose identifier differs from the grooming ticket. -/
def siblingTicketsOf (engineer : EngineerProfile) (epicKey : String)
    (ticketKey : String) : List ProcessedIssue :=
  engineer.recentTickets.filter
    (fun t => t.parent == some epicKey && t.ticketId != ticketKey)

/-- The signal pushed for one (ticket, engineer) pair
(grooming-service.ts, lines 139-148). -/
def mkSignal (ticket : GroomingTicket) (engineer : EngineerProfile) :
    EpicContinuitySignal :=
  let epicKey := ticket.parent.getD ""
  let sibs := siblingTicketsOf engineer epicKey ticket.ticketKey
  { ticketKey := ticket.ticketKey
    epicKey := epicKey
    epicSummary := ticket.parentSummary
    engineerName := engineer.name
    siblingCount := sibs.length
    siblingTickets := (sibs.take 3).map (fun t => t.ticketId) }

/-- The inner engineer loop of `buildEpicContinuitySignals` for one ticket:
a signal is pushed exactly when the sibling list is non-empty. -/
def signalsForTicket (engineerProfiles : List EngineerProfile)
    (ticket : GroomingTicket) : List EpicContinuitySignal :=
  engineerProfiles.filterMap fun engineer =>
    if 0 < (siblingTicketsOf engineer (ticket.parent.getD "")
        ticket.ticketKey).length
    then some (mkSignal ticket engineer)
    else none

/-- `buildEpicContinuitySignals` (grooming-service.ts, lines 114-154).
Only tickets whose `parent` is truthy (non-null and non-empty) are
considered; for each, one signal per engineer with at least one sibling
ticket is collected, in ticket-then-engineer order. -/
def buildEpicContinuitySignals (groomingTickets : List GroomingTicket)
    (engineerProfiles : List EngineerProfile) : List EpicContinuitySignal :=
  ((groomingTickets.filter (fun t => strTruthy t.parent)).map
    (signalsForTicket engineerProfiles)).flatten

/-!  Specification-side helper definitions used to state and prove
properties of the vote aggregation.  They are not part of the embedded
program; `tallyVotes` is proved equal to a fold of `bumpVote` over
`voteSeq`, whose key order is captured by `keysOf`. -/

/-- The sequence of votes cast for a ticket key, one entry per trial that
contains a recommendation for the ticket (the first such recommendation),
in trial order. -/
def voteSeq (ticketKey : String)
    (trials : List (List AssignmentRecommendation)) : List String :=
  trials.filterMap fun trial =>
    (trial.find? (fun r => r.ticketKey == ticketKey)).map
      (fun r => r.recommendedEngineer)

/-- Folding the vote sequence through the JavaScript map update. -/
def tally (vs : List String) : List (String × Nat) :=
  vs.foldl bumpVote []

/-- Key order of a JavaScript `Map`: existing keys stay in place, new keys
are appended. -/
def insKey (ks : List String) (n : String) : List String :=
  if n ∈ ks then ks else ks ++ [n]

/-- The insertion-ordered key list of the vote map: distinct names in order
of first occurrence. -/
def keysOf (vs : List String) : List String :=
  vs.foldl insKey []

/-- `votes.get(name) || 0` on the entry-list representation of the map. -/
def lookupCount (votes : List (String × Nat)) (name : String) : Nat :=
  match votes.find? (fun e => e.1 == name) with
  | some e => e.2
  | none => 0

/-- A vote sequence has a unique majority winner: some voted name strictly
out-counts every other voted name. -/
def uniqueMax (vs : List String) : Prop :=
  ∃ w, w ∈ vs ∧ ∀ n ∈ vs, n ≠ w → vs.count n < vs.count w

/-! Concrete sample data for counterexamples and witnesses. -/

/-- Sample grooming ticket. -/
def sampleTicket (key cat sum : String) (par : Option String) :
    GroomingTicket :=
  { ticketKey := key, category := cat, summary := sum, description := ""
    labels := [], components := [], parent := par, parentSummary := none }

/-- Sample recommendation as produced by a parsed trial. -/
def sampleRec (key eng : String) : AssignmentRecommendation :=
  { ticketKey := key, category := "Ops", summary := "Fix the pipeline"
    recommendedEngineer := eng, reasoning := none, confidence := none }

/-- Sample historical work record. -/
def sampleIssue (id : String) (par : Option String) : ProcessedIssue :=
  { ticketId := id, summary := "", assignee := "", status := ""
    description := "", labels := [], components := [], parent := par
    parentSummary := none }

/-- Sample engineer profile. -/
def sampleEngineer (name : String) (recents : List ProcessedIssue) :
    EngineerProfile :=
  { name := name, email := "", recentTickets := recents
    currentWorkload := 0, specializations := [] }

/-- Sample parsed oracle-response item. -/
def sampleItem (key eng : String) : ParsedItem :=
  { ticketKey := key, recommendedEngineer := eng, reasoning := none }

/-! Infrastructure lemmas about the JavaScript-map vote tally. -/

/-- Bumping a key absent from a keyed entry list appends it with count 1. -/
theorem bumpVote_map_not_mem (f : String → Nat) {ks : List String}
    {n : String} (h : n ∉ ks) :
    bumpVote (ks.map (fun k => (k, f k))) n
      = ks.map (fun k => (k, f k)) ++ [(n, 1)] := by
  induction ks with
  | nil => rfl
  | cons k rest ih =>
    simp only [List.mem_cons, not_or] at h
    have hk : (k == n) = false := by
      simp [Ne.symm h.1]
    simp [bumpVote, hk, ih h.2]

/-- Bumping a key present in a duplicate-free keyed entry list increments
exactly that key's count in place. -/
theorem bumpVote_map_mem (f : String → Nat) {ks : List String} {n : String}
    (hnd : ks.Nodup) (h : n ∈ ks) :
    bumpVote (ks.map (fun k => (k, f k))) n
      = ks.map (fun k => (k, if k = n then f k + 1 else f k)) := by
  induction ks with
  | nil => cases h
  | cons k rest ih =>
    rcases List.mem_cons.mp h with hkn | hmem
    · subst hkn
      have hrest : ∀ x ∈ rest, ¬ x = n := by
        intro x hx hxk
        exact (List.nodup_cons.mp hnd).1 (hxk ▸ hx)
      simp only [List.map_cons, bumpVote, beq_self_eq_true, if_true]
      congr 1
      apply List.map_congr_left
      intro x hx
      simp [hrest x hx]
    · have hk : ¬ k = n := by
        intro hkn
        exact (List.nodup_cons.mp hnd).1 (hkn ▸ hmem)
      have hkb : (k == n) = false := by simp [hk]
      simp [bumpVote, hkb, hk, ih (List.nodup_cons.mp hnd).2 hmem]

/-- Folding votes into a keyed entry list: keys evolve by `insKey`, counts
by the number of occurrences.  The entry list must be duplicate-free and
carry count 0 (implicitly) for absent keys. -/
theorem tally_shape (vs : List String) :
    ∀ (ks : List String) (f : String → Nat), ks.Nodup →
      (∀ k, k ∉ ks → f k = 0) →
      vs.foldl bumpVote (ks.map (fun k => (k, f k)))
        = (vs.foldl insKey ks).map (fun k => (k, f k + vs.count k)) := by
  induction vs with
  | nil => intro ks f _ _; simp
  | cons n rest ih =>
    intro ks f hnd hf
    by_cases hn : n ∈ ks
    · have hb : bumpVote (ks.map (fun k => (k, f k))) n
          = ks.map (fun k => (k, if k = n then f k + 1 else f k)) :=
        bumpVote_map_mem f hnd hn
      have hins : insKey ks n = ks := by simp [insKey, hn]
      have hrec := ih ks (fun k => if k = n then f k + 1 else f k) hnd
        (by
          intro k hk
          have : ¬ k = n := fun h => hk (h ▸ hn)
          simp [this, hf k hk])
      calc (n :: rest).foldl bumpVote (ks.map (fun k => (k, f k)))
          = rest.foldl bumpVote
              (ks.map (fun k => (k, if k = n then f k + 1 else f k))) := by
            rw [List.foldl_cons, hb]
        _ = (rest.foldl insKey ks).map
              (fun k => (k, (if k = n then f k + 1 else f k) + rest.count k)) :=
            hrec
        _ = ((n :: rest).foldl insKey ks).map
              (fun k => (k, f k + (n :: rest).count k)) := by
            rw [List.foldl_cons, hins]
            apply List.map_congr_left
            intro k _
            by_cases hk : k = n <;>
              simp [hk, List.count_cons] <;> omega
    · have hb : bumpVote (ks.map (fun k => (k, f k))) n
          = ks.map (fun k => (k, f k)) ++ [(n, 1)] :=
        bumpVote_map_not_mem f hn
      have hsplit : ks.map (fun k => (k, f k)) ++ [(n, 1)]
          = (ks ++ [n]).map (fun k => (k, if k = n then 1 else f k)) := by
        rw [List.map_append]
        congr 1
        · apply List.map_congr_left
          intro k hk
          have : ¬ k = n := fun h => hn (h ▸ hk)
          simp [this]
        · simp
      have hnd₂ : (ks ++ [n]).Nodup := by
        refine List.Nodup.append hnd (List.nodup_singleton n) ?_
        intro a ha hb'
        have : a = n := by simpa using hb'
        exact hn (this ▸ ha)
      have hrec := ih (ks ++ [n]) (fun k => if k = n then 1 else f k) hnd₂
        (by
          intro k hk
          simp only [List.mem_append, List.mem_singleton, not_or] at hk
          simp [hk.2, hf k hk.1])
      have hins : insKey ks n = ks ++ [n] := by simp [insKey, hn]
      calc (n :: rest).foldl bumpVote (ks.map (fun k => (k, f k)))
          = rest.foldl bumpVote
              ((ks ++ [n]).map (fun k => (k, if k = n then 1 else f k))) := by
            rw [List.foldl_cons, hb, hsplit]
        _ = (rest.foldl insKey (ks ++ [n])).map
              (fun k => (k, (if k = n then 1 else f k) + rest.count k)) :=
            hrec
        _ = ((n :: rest).foldl insKey ks).map
              (fun k => (k, f k + (n :: rest).count k)) := by
            rw [List.foldl_cons, hins]
            apply List.map_congr_left
            intro k _
            by_cases hk : k = n <;>
              simp [hk, List.count_cons, hf n hn] <;> omega

/-- Membership in the accumulated key list. -/
theorem mem_foldl_insKey (vs : List String) :
    ∀ (ks : List String) (n : String),
      n ∈ vs.foldl insKey ks ↔ n ∈ ks ∨ n ∈ vs := by
  induction vs with
  | nil => intro ks n; simp
  | cons v rest ih =>
    intro ks n
    rw [List.foldl_cons, ih]
    by_cases hv : v ∈ ks
    · simp only [insKey, if_pos hv, List.mem_cons]
      constructor
      · tauto
      · rintro (h | rfl | h)
        · exact Or.inl h
        · exact Or.inl hv
        · exact Or.inr h
    · simp [insKey, hv, or_assoc]

/-- The vote-map keys are exactly the voted names. -/
theorem mem_keysOf {vs : List String} {n : String} :
    n ∈ keysOf vs ↔ n ∈ vs := by
  rw [keysOf, mem_foldl_insKey]; simp

/-- `insKey` preserves freedom from duplicate keys. -/
theorem nodup_foldl_insKey (vs : List String) :
    ∀ ks : List String, ks.Nodup → (vs.foldl insKey ks).Nodup := by
  induction vs with
  | nil => intro ks h; exact h
  | cons v rest ih =>
    intro ks h
    rw [List.foldl_cons]
    apply ih
    by_cases hv : v ∈ ks
    · simpa [insKey, hv] using h
    · simp only [insKey, if_neg hv]
      refine List.Nodup.append h (List.nodup_singleton v) ?_
      intro a ha hb
      have : a = v := by simpa using hb
      exact hv (this ▸ ha)

/-- The vote-map key list has no duplicate keys. -/
theorem nodup_keysOf (vs : List String) : (keysOf vs).Nodup :=
  nodup_foldl_insKey vs [] List.nodup_nil

/-- Searching the accumulated key list is searching the seed keys, then the
elements, in order. -/
theorem find?_foldl_insKey (p : String → Bool) (vs : List String) :
    ∀ ks : List String,
      (vs.foldl insKey ks).find? p = (ks.find? p).or (vs.find? p) := by
  induction vs with
  | nil => intro ks; cases h : ks.find? p <;> simp [h]
  | cons v rest ih =>
    intro ks
    rw [List.foldl_cons, ih]
    by_cases hv : v ∈ ks
    · rw [insKey, if_pos hv]
      cases hks : ks.find? p with
      | none =>
        have hpv : ¬ p v = true := List.find?_eq_none.mp hks v hv
        rw [List.find?_cons_of_neg _ hpv]
      | some a => simp
    · rw [insKey, if_neg hv, List.find?_append]
      cases hks : ks.find? p with
      | none =>
        cases hpv : p v
        · rw [List.find?_cons_of_neg _ (by simp [hpv])]
          simp [List.find?, hpv]
        · rw [List.find?_cons_of_pos _ hpv]
          simp [List.find?, hpv]
      | some a => simp

/-- A name-predicate finds the same witness in the vote sequence and in the
vote-map key list. -/
theorem find?_keysOf (p : String → Bool) (vs : List String) :
    (keysOf vs).find? p = vs.find? p := by
  rw [keysOf, find?_foldl_insKey]
  simp

/-- The vote map is the first-occurrence key list paired with occurrence
counts. -/
theorem tally_eq (vs : List String) :
    tally vs = (keysOf vs).map (fun k => (k, vs.count k)) := by
  have h := tally_shape vs [] (fun _ => 0) List.nodup_nil (fun _ _ => rfl)
  simpa [tally, keysOf] using h

/-- Searching a list of distinct strings for one of them. -/
theorem find?_eq_self {n : String} :
    ∀ ks : List String,
      ks.find? (fun k => k == n) = if n ∈ ks then some n else none := by
  intro ks
  induction ks with
  | nil => simp
  | cons k rest ih =>
    by_cases hk : k = n
    · subst hk
      rw [List.find?_cons_of_pos _ (by simp)]
      simp
    · rw [List.find?_cons_of_neg _ (by simp [hk]), ih]
      by_cases hn : n ∈ rest <;> simp [hn, hk, Ne.symm hk]

/-- `votes.get(n) || 0` on the tallied map is the occurrence count. -/
theorem lookupCount_tally (vs : List String) (n : String) :
    lookupCount (tally vs) n = vs.count n := by
  unfold lookupCount
  rw [tally_eq, List.find?_map]
  have hcomp : ((fun e : String × Nat => e.1 == n) ∘ fun k => (k, vs.count k))
      = fun k => k == n := rfl
  rw [hcomp, find?_eq_self]
  by_cases hn : n ∈ keysOf vs
  · simp [hn]
  · have hnv : n ∉ vs := fun h => hn (mem_keysOf.mpr h)
    simp [hn, List.count_eq_zero.mpr hnv]

/-- The winner scan does not move off an accumulator that already dominates
every entry. -/
theorem foldl_winner_fixed (l : List (String × Nat)) :
    ∀ a0 : String × Nat, (∀ e ∈ l, e.2 ≤ a0.2) →
      l.foldl (fun acc e => if e.2 > acc.2 then e else acc) a0 = a0 := by
  induction l with
  | nil => intro a0 _; rfl
  | cons e rest ih =>
    intro a0 h
    rw [List.foldl_cons]
    have he : ¬ e.2 > a0.2 := by
      have := h e (List.mem_cons_self e rest)
      omega
    rw [if_neg he]
    exact ih a0 (fun x hx => h x (List.mem_cons_of_mem e hx))

/-- The winner scan returns its seed or one of the entries. -/
theorem foldl_winner_mem (l : List (String × Nat)) :
    ∀ a0 : String × Nat,
      l.foldl (fun acc e => if e.2 > acc.2 then e else acc) a0 = a0 ∨
        l.foldl (fun acc e => if e.2 > acc.2 then e else acc) a0 ∈ l := by
  induction l with
  | nil => intro _; exact Or.inl rfl
  | cons e rest ih =>
    intro a0
    rw [List.foldl_cons]
    rcases ih (if e.2 > a0.2 then e else a0) with h | h
    · rw [h]
      by_cases he : e.2 > a0.2
      · right
        rw [if_pos he]
        exact List.mem_cons_self e rest
      · left
        rw [if_neg he]
    · right
      exact List.mem_cons_of_mem e h

/-- On a keyed entry list, the winner scan selects the first key whose
count equals the maximum, when counts are bounded by `M` and the seed is
strictly below `M`. -/
theorem foldl_winner_max (f : String → Nat) :
    ∀ (ks : List String) (a0 : String × Nat) (M : Nat) (w : String),
      (∀ k ∈ ks, f k ≤ M) → a0.2 < M →
      ks.find? (fun k => f k == M) = some w →
      (ks.map (fun k => (k, f k))).foldl
        (fun acc e => if e.2 > acc.2 then e else acc) a0 = (w, M) := by
  intro ks
  induction ks with
  | nil => intro a0 M w _ _ h; simp at h
  | cons k rest ih =>
    intro a0 M w hub ha0 hfind
    rw [List.map_cons, List.foldl_cons]
    by_cases hk : f k = M
    · have hw : w = k := by
        rw [List.find?_cons_of_pos _ (by simp [hk])] at hfind
        exact (Option.some_inj.mp hfind).symm
      have hgt : (k, f k).2 > a0.2 := by simp [hk]; omega
      rw [if_pos hgt]
      have hfix := foldl_winner_fixed (rest.map (fun k => (k, f k))) (k, f k)
        (by
          intro e he
          obtain ⟨x, hx, rfl⟩ := List.mem_map.mp he
          simp [hk]
          exact hub x (List.mem_cons_of_mem k hx))
      rw [hfix, hw, hk]
    · have hfind' : rest.find? (fun k => f k == M) = some w := by
        rwa [List.find?_cons_of_neg _ (by simp [hk])] at hfind
      have hle : f k < M := by
        have := hub k (List.mem_cons_self k rest)
        omega
      have ha1 : (if (k, f k).2 > a0.2 then (k, f k) else a0).2 < M := by
        by_cases hc : (k, f k).2 > a0.2
        · rw [if_pos hc]; exact hle
        · rw [if_neg hc]; exact ha0
      exact ih _ M w (fun x hx => hub x (List.mem_cons_of_mem k hx)) ha1 hfind'

/-- Master lemma: given an upper bound `M` on vote counts that is attained,
the winner scan over the tallied vote map returns the first voted name whose
count is `M`, with count `M`. -/
theorem pickWinner_tally (vs : List String) (M : Nat)
    (hub : ∀ n ∈ vs, vs.count n ≤ M)
    (hex : ∃ n, n ∈ vs ∧ vs.count n = M) :
    ∃ w, vs.find? (fun n => vs.count n == M) = some w ∧
      vs.count w = M ∧ pickWinner (tally vs) = (w, M) := by
  obtain ⟨n0, hn0, hc0⟩ := hex
  have hMpos : 0 < M := by
    have : 0 < vs.count n0 := List.count_pos_iff.mpr hn0
    omega
  obtain ⟨w, hw⟩ : ∃ w, vs.find? (fun n => vs.count n == M) = some w := by
    cases hf : vs.find? (fun n => vs.count n == M) with
    | none =>
      exfalso
      have := List.find?_eq_none.mp hf n0 hn0
      simp [hc0] at this
    | some a => exact ⟨a, rfl⟩
  have hcw : vs.count w = M := by
    have := List.find?_some hw
    simpa using this
  refine ⟨w, hw, hcw, ?_⟩
  rw [pickWinner, tally_eq]
  have hwk : (keysOf vs).find? (fun n => vs.count n == M) = some w := by
    rw [find?_keysOf]
    exact hw
  exact foldl_winner_max (fun n => vs.count n) (keysOf vs) _ M w
    (fun k hk => hub k (mem_keysOf.mp hk)) hMpos hwk

/-- The trial loop of `aggregateTrialResults` tallies exactly the vote
sequence. -/
theorem tallyVotes_foldl (ticketKey : String) :
    ∀ (trials : List (List AssignmentRecommendation))
      (votes : List (String × Nat)),
      trials.foldl
        (fun votes trial =>
          match trial.find? (fun r => r.ticketKey == ticketKey) with
          | some rec => bumpVote votes rec.recommendedEngineer
          | none => votes)
        votes
        = (voteSeq ticketKey trials).foldl bumpVote votes := by
  intro trials
  induction trials with
  | nil => intro votes; rfl
  | cons trial rest ih =>
    intro votes
    rw [List.foldl_cons]
    cases hf : trial.find? (fun r => r.ticketKey == ticketKey) with
    | none =>
      have hvs : voteSeq ticketKey (trial :: rest) = voteSeq ticketKey rest := by
        simp [voteSeq, List.filterMap_cons, hf]
      simp only [hf]
      rw [ih, hvs]
    | some rec =>
      have hvs : voteSeq ticketKey (trial :: rest)
          = rec.recommendedEngineer :: voteSeq ticketKey rest := by
        simp [voteSeq, List.filterMap_cons, hf]
      simp only [hf]
      rw [ih, hvs, List.foldl_cons]

/-- `tallyVotes` is the tally of the vote sequence. -/
theorem tallyVotes_eq (ticketKey : String)
    (trials : List (List AssignmentRecommendation)) :
    tallyVotes ticketKey trials = tally (voteSeq ticketKey trials) :=
  tallyVotes_foldl ticketKey trials []

/-- The tallied count of a name is its number of votes. -/
theorem lookupCount_tallyVotes (ticketKey : String)
    (trials : List (List AssignmentRecommendation)) (n : String) :
    lookupCount (tallyVotes ticketKey trials) n
      = (voteSeq ticketKey trials).count n := by
  rw [tallyVotes_eq, lookupCount_tally]

/-- An empty-list test rendered as the boolean the code branches on. -/
theorem length_beq_zero_eq_false {α : Type} {l : List α} (h : l ≠ []) :
    (l.length == 0) = false := by
  cases l with
  | nil => exact absurd rfl h
  | cons a as => rfl

/-- The reasoning merge never touches the first five fields. -/
theorem addConsensusReasoning_proj
    (consensusResults : List AssignmentRecommendation)
    (reasoningCall : Option (List (String × String))) :
    (addConsensusReasoning consensusResults reasoningCall).map
        (fun r => (r.ticketKey, r.category, r.summary,
          r.recommendedEngineer, r.confidence))
      = consensusResults.map
        (fun r => (r.ticketKey, r.category, r.summary,
          r.recommendedEngineer, r.confidence)) := by
  cases reasoningCall with
  | none => rfl
  | some reasonings =>
    rw [addConsensusReasoning, List.map_map]
    rfl

/-- The reasoning merge never touches the confidence field. -/
theorem addConsensusReasoning_confidence
    (consensusResults : List AssignmentRecommendation)
    (reasoningCall : Option (List (String × String))) :
    (addConsensusReasoning consensusResults reasoningCall).map
        (fun r => r.confidence)
      = consensusResults.map (fun r => r.confidence) := by
  cases reasoningCall with
  | none => rfl
  | some reasonings =>
    rw [addConsensusReasoning, List.map_map]
    rfl

/-- Claim C10: for an empty input ticket list, both
`generateConsensusRecommendations` and `generateAssignmentRecommendations`
return the empty recommendation list — for every engineer profile list,
verbosity flag, trial-outcome list, fallback outcome and reasoning
outcome — and perform zero oracle calls. -/
theorem claim_C10 (engineerProfiles : List EngineerProfile) (verbose : Bool)
    (epicSignals : List EpicContinuitySignal)
    (trialOutcomes : List TrialOutcome)
    (fallbackCall : Except Unit (Option (List ParsedItem)))
    (reasoningCall : Option (List (String × String)))
    (oracleCall : Except Unit (Option (List ParsedItem))) :
    generateConsensusRecommendations [] engineerProfiles verbose epicSignals
        trialOutcomes fallbackCall reasoningCall = (Except.ok [], 0)
      ∧ generateAssignmentRecommendations [] engineerProfiles verbose
          epicSignals oracleCall = (Except.ok [], 0) :=
  ⟨rfl, rfl⟩

/-- Claim C7: whether the rationale-enrichment call fails (outcome `none`,
the catch branch returns the input list unchanged) or succeeds, every
recommendation's ticketKey, category, summary, recommendedEngineer and
confidence are exactly those of the already-computed consensus; only the
reasoning field may change. -/
theorem claim_C7 (consensusResults : List AssignmentRecommendation)
    (reasoningCall : Option (List (String × String))) :
    addConsensusReasoning consensusResults none = consensusResults
      ∧ (addConsensusReasoning consensusResults reasoningCall).map
          (fun r => (r.ticketKey, r.category, r.summary,
            r.recommendedEngineer, r.confidence))
        = consensusResults.map
          (fun r => (r.ticketKey, r.category, r.summary,
            r.recommendedEngineer, r.confidence)) :=
  ⟨rfl, addConsensusReasoning_proj consensusResults reasoningCall⟩

/-- Claim C1 as frozen is FALSE on the code: a trial whose oracle call
succeeds but whose response is unparseable does not contribute an empty
result set — the parse catch block returns one "Unable to determine"
recommendation per ticket, so the trial is non-empty and is counted among
the valid trials used for voting. -/
theorem claim_C1_counterexample :
    runTrial [sampleTicket "T-1" "Ops" "Fix the pipeline" none]
        (TrialOutcome.response none) ≠ []
      ∧ validTrialsOf [sampleTicket "T-1" "Ops" "Fix the pipeline" none]
          [TrialOutcome.response none]
        = [runTrial [sampleTicket "T-1" "Ops" "Fix the pipeline" none]
            (TrialOutcome.response none)] := by
  constructor
  · decide
  · rfl

/-- Claim C1 amended: a trial whose ORACLE CALL fails contributes an empty
result set and is excluded from the valid trials, and no trial's
contribution depends on any other trial's outcome; but a trial whose
response is unparseable contributes one "Unable to determine"
recommendation per input ticket (a non-empty set kept as a valid trial
whenever the ticket list is non-empty). -/
theorem claim_C1 (tickets : List GroomingTicket)
    (outcomes : List TrialOutcome) (i : Nat) :
    runTrial tickets TrialOutcome.failure = []
      ∧ [] ∉ validTrialsOf tickets outcomes
      ∧ runTrial tickets (TrialOutcome.response none)
        = tickets.map (fun t =>
            { ticketKey := t.ticketKey, category := t.category
              summary := t.summary
              recommendedEngineer := "Unable to determine"
              reasoning := none, confidence := none })
      ∧ (outcomes.map (runTrial tickets))[i]?
        = (outcomes[i]?).map (runTrial tickets) := by
  refine ⟨rfl, ?_, rfl, List.getElem?_map _ _ _⟩
  intro hmem
  rw [validTrialsOf] at hmem
  have := (List.mem_filter.mp hmem).2
  simp at this

/-- Claim C9: inside a trial, the vote for a ticket is the FIRST
recommendation carrying that ticket key; any duplicates after it are
ignored, so the tally is unchanged when they are dropped, and a trial never
contributes more than one vote per ticket (the vote sequence is at most one
entry per trial). -/
theorem claim_C9 (ticketKey : String)
    (pre post : List AssignmentRecommendation)
    (r1 : AssignmentRecommendation)
    (trials1 trials2 : List (List AssignmentRecommendation))
    (hpre : ∀ r ∈ pre, ¬ r.ticketKey = ticketKey)
    (hr1 : r1.ticketKey = ticketKey) :
    (pre ++ r1 :: post).find? (fun r => r.ticketKey == ticketKey) = some r1
      ∧ tallyVotes ticketKey (trials1 ++ (pre ++ r1 :: post) :: trials2)
        = tallyVotes ticketKey (trials1 ++ (pre ++ [r1]) :: trials2)
      ∧ (voteSeq ticketKey (trials1 ++ (pre ++ r1 :: post) :: trials2)).length
        ≤ (trials1 ++ (pre ++ r1 :: post) :: trials2).length := by
  have hpre' : pre.find? (fun r => r.ticketKey == ticketKey) = none :=
    List.find?_eq_none.mpr (fun x hx => by simp [hpre x hx])
  have h1 : (pre ++ r1 :: post).find? (fun r => r.ticketKey == ticketKey)
      = some r1 := by
    rw [List.find?_append, hpre', Option.none_or,
      List.find?_cons_of_pos _ (by simp [hr1])]
  have h2 : (pre ++ [r1]).find? (fun r => r.ticketKey == ticketKey)
      = some r1 := by
    rw [List.find?_append, hpre', Option.none_or,
      List.find?_cons_of_pos _ (by simp [hr1])]
  have hv : voteSeq ticketKey (trials1 ++ (pre ++ r1 :: post) :: trials2)
      = voteSeq ticketKey (trials1 ++ (pre ++ [r1]) :: trials2) := by
    rw [voteSeq, voteSeq, List.filterMap_append, List.filterMap_append,
      List.filterMap_cons, List.filterMap_cons, h1, h2]
  refine ⟨h1, ?_, ?_⟩
  · rw [tallyVotes_eq, tallyVotes_eq, hv]
  · exact List.length_filterMap_le _ _

/-- Witness for C9: a trial recommending "T-1" twice (Alice first, Bob
second) votes Alice, and dropping the duplicate leaves the tally
unchanged. -/
theorem claim_C9_witness :
    ([] ++ sampleRec "T-1" "Alice" :: [sampleRec "T-1" "Bob"]).find?
        (fun r => r.ticketKey == "T-1") = some (sampleRec "T-1" "Alice")
      ∧ tallyVotes "T-1"
          ([] ++ ([] ++ sampleRec "T-1" "Alice" :: [sampleRec "T-1" "Bob"]) :: [])
        = tallyVotes "T-1" ([] ++ ([] ++ [sampleRec "T-1" "Alice"]) :: [])
      ∧ (voteSeq "T-1"
          ([] ++ ([] ++ sampleRec "T-1" "Alice" :: [sampleRec "T-1" "Bob"]) :: [])).length
        ≤ (([] ++ ([] ++ sampleRec "T-1" "Alice" :: [sampleRec "T-1" "Bob"]) :: [])
            : List (List AssignmentRecommendation)).length :=
  claim_C9 "T-1" [] [sampleRec "T-1" "Bob"] (sampleRec "T-1" "Alice") [] []
    (by intro r h; cases h) rfl

/-- Claim C2 as frozen is FALSE on the code: nothing checks trial-voted
names against the engineer profiles, and the parse fallback can make
trials vote the sentinel itself.  With profiles `["Alice"]` and one valid
trial voting "Zorp" for T-1 and "Unable to determine" for T-2, the output
recommends "Zorp" (neither a profile name nor the sentinel), and the
sentinel appears for T-2 even though a valid trial voted for T-2. -/
theorem claim_C2_counterexample :
    ((aggregateTrialResults
        [sampleTicket "T-1" "Ops" "A" none, sampleTicket "T-2" "Ops" "B" none]
        [[sampleRec "T-1" "Zorp", sampleRec "T-2" "Unable to determine"]]
        1).map (fun r => r.recommendedEngineer))
      = ["Zorp", "Unable to determine"]
      ∧ ¬ ("Zorp" ∈ ["Alice"] ∨ "Zorp" = "Unable to determine")
      ∧ voteSeq "T-2"
          [[sampleRec "T-1" "Zorp", sampleRec "T-2" "Unable to determine"]]
        ≠ [] := by
  refine ⟨rfl, by decide, by decide⟩

/-- Claim C2 amended: every output winner is either a name some valid trial
voted for that ticket or the sentinel "Unable to determine", and whenever
ZERO valid trials voted for the ticket the output is the sentinel with zero
votes; the converse fails because trials may themselves vote the sentinel
string (and voted names are never checked against the profiles). -/
theorem claim_C2 (tickets : List GroomingTicket)
    (trials : List (List AssignmentRecommendation)) (totalTrials : Nat)
    (r : AssignmentRecommendation)
    (hr : r ∈ aggregateTrialResults tickets trials totalTrials) :
    ((∃ trial ∈ trials, ∃ rec,
        trial.find? (fun x => x.ticketKey == r.ticketKey) = some rec
          ∧ rec.recommendedEngineer = r.recommendedEngineer)
      ∨ r.recommendedEngineer = "Unable to determine")
      ∧ (voteSeq r.ticketKey trials = [] →
          r.recommendedEngineer = "Unable to determine"
            ∧ r.confidence = some ("0/" ++ toString totalTrials)) := by
  rw [aggregateTrialResults] at hr
  obtain ⟨ticket, hticket, rfl⟩ := List.mem_map.mp hr
  constructor
  · rcases foldl_winner_mem (tally (voteSeq ticket.ticketKey trials))
        ("Unable to determine", 0) with h | h
    · right
      show (pickWinner (tallyVotes ticket.ticketKey trials)).1 = _
      rw [tallyVotes_eq, pickWinner, h]
    · left
      rw [tally_eq] at h
      obtain ⟨k, hk, hke⟩ := List.mem_map.mp h
      have hkvs : k ∈ voteSeq ticket.ticketKey trials := mem_keysOf.mp hk
      obtain ⟨trial, htrial, hsome⟩ := List.mem_filterMap.mp hkvs
      obtain ⟨rec, hrec, hname⟩ := Option.map_eq_some'.mp hsome
      refine ⟨trial, htrial, rec, hrec, ?_⟩
      show rec.recommendedEngineer
        = (pickWinner (tallyVotes ticket.ticketKey trials)).1
      rw [tallyVotes_eq, pickWinner, tally_eq, ← hke]
      exact hname
  · intro hempty
    have hkey : voteSeq ticket.ticketKey trials = [] := hempty
    have hpw : pickWinner (tallyVotes ticket.ticketKey trials)
        = ("Unable to determine", 0) := by
      rw [tallyVotes_eq, hkey]
      rfl
    constructor
    · show (pickWinner (tallyVotes ticket.ticketKey trials)).1 = _
      rw [hpw]
    · show some (toString (pickWinner (tallyVotes ticket.ticketKey trials)).2
          ++ "/" ++ toString totalTrials) = _
      rw [hpw]
      rfl

/-- Witness for C2: with one valid trial voting Alice for T-1, the output
winner Alice was voted by that trial. -/
theorem claim_C2_witness :
    ({ ticketKey := "T-1", category := "Ops", summary := "A"
       recommendedEngineer := "Alice", reasoning := none
       confidence := some "1/1" } : AssignmentRecommendation)
      ∈ aggregateTrialResults [sampleTicket "T-1" "Ops" "A" none]
          [[sampleRec "T-1" "Alice"]] 1
      ∧ (((∃ trial ∈ [[sampleRec "T-1" "Alice"]], ∃ rec,
            trial.find? (fun x => x.ticketKey
              == ({ ticketKey := "T-1", category := "Ops", summary := "A"
                    recommendedEngineer := "Alice", reasoning := none
                    confidence := some "1/1" }
                  : AssignmentRecommendation).ticketKey) = some rec
              ∧ rec.recommendedEngineer = "Alice")
          ∨ ("Alice" : String) = "Unable to determine")
        ∧ (voteSeq "T-1" [[sampleRec "T-1" "Alice"]] = [] →
            ("Alice" : String) = "Unable to determine"
              ∧ (some "1/1" : Option String) = some ("0/" ++ toString 1))) :=
  ⟨by decide,
    claim_C2 [sampleTicket "T-1" "Ops" "A" none] [[sampleRec "T-1" "Alice"]] 1
      _ (by decide)⟩

/-- Claim C3 as frozen is FALSE on the code: permuting the valid trials can
change the winner.  With trials voting Dana then Eve for "T-1" (a 1/1 tie),
trial order [Dana, Eve] elects Dana while the permuted order [Eve, Dana]
elects Eve. -/
theorem claim_C3_counterexample :
    ([[sampleRec "T-1" "Dana"], [sampleRec "T-1" "Eve"]]
        : List (List AssignmentRecommendation)).Perm
        [[sampleRec "T-1" "Eve"], [sampleRec "T-1" "Dana"]]
      ∧ (aggregateTrialResults [sampleTicket "T-1" "Ops" "A" none]
          [[sampleRec "T-1" "Dana"], [sampleRec "T-1" "Eve"]] 2).map
          (fun r => r.recommendedEngineer) = ["Dana"]
      ∧ (aggregateTrialResults [sampleTicket "T-1" "Ops" "A" none]
          [[sampleRec "T-1" "Eve"], [sampleRec "T-1" "Dana"]] 2).map
          (fun r => r.recommendedEngineer) = ["Eve"] :=
  ⟨List.Perm.swap _ _ _, rfl, rfl⟩

/-- Claim C3 amended: permuting the valid trials leaves every ticket's vote
counts unchanged, and leaves the winners (hence the entire output)
unchanged whenever each ticket either received no votes or has a unique
engineer with the strictly highest count; under a tie at the highest count
the winner may depend on trial order. -/
theorem claim_C3 (tickets : List GroomingTicket)
    (trials trials' : List (List AssignmentRecommendation))
    (totalTrials : Nat)
    (hperm : trials.Perm trials')
    (huniq : ∀ t ∈ tickets, voteSeq t.ticketKey trials = []
        ∨ uniqueMax (voteSeq t.ticketKey trials)) :
    aggregateTrialResults tickets trials totalTrials
        = aggregateTrialResults tickets trials' totalTrials
      ∧ ∀ ticketKey n, lookupCount (tallyVotes ticketKey trials) n
          = lookupCount (tallyVotes ticketKey trials') n := by
  have hseq : ∀ tk : String, (voteSeq tk trials).Perm (voteSeq tk trials') :=
    fun tk => List.Perm.filterMap _ hperm
  have hcnt : ∀ (tk n : String),
      (voteSeq tk trials').count n = (voteSeq tk trials).count n :=
    fun tk n => ((hseq tk).count_eq n).symm
  constructor
  · unfold aggregateTrialResults
    apply List.map_congr_left
    intro ticket hticket
    have hpw : pickWinner (tallyVotes ticket.ticketKey trials)
        = pickWinner (tallyVotes ticket.ticketKey trials') := by
      rcases huniq ticket hticket with hempty | ⟨w, hwmem, hlt⟩
      · have hempty' : voteSeq ticket.ticketKey trials' = [] := by
          have h := hseq ticket.ticketKey
          rw [hempty] at h
          exact h.symm.eq_nil
        rw [tallyVotes_eq, tallyVotes_eq, hempty, hempty']
      · have hub : ∀ n ∈ voteSeq ticket.ticketKey trials,
            (voteSeq ticket.ticketKey trials).count n
              ≤ (voteSeq ticket.ticketKey trials).count w := by
          intro n hn
          by_cases hnw : n = w
          · rw [hnw]
          · exact Nat.le_of_lt (hlt n hn hnw)
        obtain ⟨w1, hf1, hc1, hpw1⟩ := pickWinner_tally
          (voteSeq ticket.ticketKey trials)
          ((voteSeq ticket.ticketKey trials).count w) hub ⟨w, hwmem, rfl⟩
        have hub' : ∀ n ∈ voteSeq ticket.ticketKey trials',
            (voteSeq ticket.ticketKey trials').count n
              ≤ (voteSeq ticket.ticketKey trials).count w := by
          intro n hn
          rw [hcnt]
          exact hub n ((hseq ticket.ticketKey).mem_iff.mpr hn)
        obtain ⟨w2, hf2, hc2, hpw2⟩ := pickWinner_tally
          (voteSeq ticket.ticketKey trials')
          ((voteSeq ticket.ticketKey trials).count w) hub'
          ⟨w, (hseq ticket.ticketKey).mem_iff.mp hwmem, hcnt _ w ▸ rfl⟩
        have hw1 : w1 = w := by
          by_contra hne
          have hmem1 : w1 ∈ voteSeq ticket.ticketKey trials :=
            List.mem_of_find?_eq_some hf1
          exact absurd hc1 (Nat.ne_of_lt (hlt w1 hmem1 hne))
        have hw2 : w2 = w := by
          by_contra hne
          have hmem2 : w2 ∈ voteSeq ticket.ticketKey trials :=
            (hseq ticket.ticketKey).mem_iff.mpr
              (List.mem_of_find?_eq_some hf2)
          have hc2' : (voteSeq ticket.ticketKey trials).count w2
              = (voteSeq ticket.ticketKey trials).count w := by
            rw [← hcnt, hc2]
          exact absurd hc2' (Nat.ne_of_lt (hlt w2 hmem2 hne))
        rw [tallyVotes_eq, tallyVotes_eq, hpw1, hpw2, hw1, hw2]
    rw [hpw]
  · intro ticketKey n
    rw [lookupCount_tallyVotes, lookupCount_tallyVotes, hcnt]

/-- Witness for C3: a single trial voting Dana for T-1 has a unique
majority, so aggregation is invariant under the (identity) permutation. -/
theorem claim_C3_witness :
    ([[sampleRec "T-1" "Dana"]] : List (List AssignmentRecommendation)).Perm
        [[sampleRec "T-1" "Dana"]]
      ∧ uniqueMax (voteSeq "T-1" [[sampleRec "T-1" "Dana"]])
      ∧ (aggregateTrialResults [sampleTicket "T-1" "Ops" "A" none]
            [[sampleRec "T-1" "Dana"]] 1
          = aggregateTrialResults [sampleTicket "T-1" "Ops" "A" none]
            [[sampleRec "T-1" "Dana"]] 1
        ∧ ∀ ticketKey n,
            lookupCount (tallyVotes ticketKey [[sampleRec "T-1" "Dana"]]) n
              = lookupCount (tallyVotes ticketKey
                  [[sampleRec "T-1" "Dana"]]) n) := by
  have huq : uniqueMax (voteSeq "T-1" [[sampleRec "T-1" "Dana"]]) := by
    refine ⟨"Dana", by decide, ?_⟩
    intro n hn hne
    have hvs : voteSeq "T-1" [[sampleRec "T-1" "Dana"]] = ["Dana"] := rfl
    rw [hvs] at hn
    exact absurd (List.mem_singleton.mp hn) hne
  refine ⟨List.Perm.refl _, huq, ?_⟩
  apply claim_C3 [sampleTicket "T-1" "Ops" "A" none] _ _ 1 (List.Perm.refl _)
  intro t ht
  have ht' : t = sampleTicket "T-1" "Ops" "A" none := by
    simpa using ht
  subst ht'
  right
  exact huq

/-- Claim C4: when two or more engineers tie on the strictly highest vote
count `M` for a ticket, the winner is the first voted name with count `M`
in the vote sequence obtained by scanning the valid trials in their
original order (each trial contributing its first recommendation for the
ticket), and the confidence shows that tied count over the passed
valid-trial total. -/
theorem claim_C4 (tickets : List GroomingTicket)
    (trials : List (List AssignmentRecommendation)) (totalTrials : Nat)
    (i : Nat) (T : GroomingTicket) (vs : List String) (M : Nat)
    (n1 n2 : String)
    (hT : tickets[i]? = some T)
    (hvs : voteSeq T.ticketKey trials = vs)
    (h1 : n1 ∈ vs) (h2 : n2 ∈ vs) (hne : n1 ≠ n2)
    (heq : vs.count n2 = vs.count n1)
    (hub : ∀ m ∈ vs, vs.count m ≤ vs.count n1)
    (hM : vs.count n1 = M) :
    ∃ w r, vs.find? (fun n => vs.count n == M) = some w
      ∧ (aggregateTrialResults tickets trials totalTrials)[i]? = some r
      ∧ r.recommendedEngineer = w
      ∧ r.confidence = some (toString M ++ "/" ++ toString totalTrials) := by
  obtain ⟨w, hfind, hcw, hpw⟩ := pickWinner_tally vs M
    (by intro n hn; rw [← hM]; exact hub n hn) ⟨n1, h1, hM⟩
  have hpw' : pickWinner (tallyVotes T.ticketKey trials) = (w, M) := by
    rw [tallyVotes_eq, hvs]
    exact hpw
  refine ⟨w,
    { ticketKey := T.ticketKey
      category := jsOrElse ((jsMapGet tickets T.ticketKey).map
        (fun t => t.category)) "Unknown"
      summary := jsOrElse ((jsMapGet tickets T.ticketKey).map
        (fun t => t.summary)) ""
      recommendedEngineer := (pickWinner (tallyVotes T.ticketKey trials)).1
      reasoning := none
      confidence := some (toString (pickWinner
        (tallyVotes T.ticketKey trials)).2 ++ "/" ++ toString totalTrials) },
    hfind, ?_, ?_, ?_⟩
  · unfold aggregateTrialResults
    rw [List.getElem?_map, hT]
    rfl
  · show (pickWinner (tallyVotes T.ticketKey trials)).1 = w
    rw [hpw']
  · show some (toString (pickWinner (tallyVotes T.ticketKey trials)).2
        ++ "/" ++ toString totalTrials) = _
    rw [hpw']

/-- Witness for C4: four valid trials split 2/2 between Dana and Eve on
ticket T-2; Dana is encountered first, wins with confidence 2/4. -/
theorem claim_C4_witness :
    ([sampleTicket "T-2" "Ops" "B" none][0]?
        = some (sampleTicket "T-2" "Ops" "B" none))
      ∧ voteSeq "T-2"
          [[sampleRec "T-2" "Dana"], [sampleRec "T-2" "Eve"],
            [sampleRec "T-2" "Eve"], [sampleRec "T-2" "Dana"]]
        = ["Dana", "Eve", "Eve", "Dana"]
      ∧ (∀ m ∈ ["Dana", "Eve", "Eve", "Dana"],
          (["Dana", "Eve", "Eve", "Dana"] : List String).count m
            ≤ (["Dana", "Eve", "Eve", "Dana"] : List String).count "Dana")
      ∧ ∃ w r, (["Dana", "Eve", "Eve", "Dana"] : List String).find?
            (fun n => (["Dana", "Eve", "Eve", "Dana"]
              : List String).count n == 2) = some w
          ∧ (aggregateTrialResults [sampleTicket "T-2" "Ops" "B" none]
              [[sampleRec "T-2" "Dana"], [sampleRec "T-2" "Eve"],
                [sampleRec "T-2" "Eve"], [sampleRec "T-2" "Dana"]] 4)[0]?
            = some r
          ∧ r.recommendedEngineer = w
          ∧ r.confidence = some (toString 2 ++ "/" ++ toString 4) :=
  ⟨rfl, rfl, by decide,
    claim_C4 [sampleTicket "T-2" "Ops" "B" none]
      [[sampleRec "T-2" "Dana"], [sampleRec "T-2" "Eve"],
        [sampleRec "T-2" "Eve"], [sampleRec "T-2" "Dana"]] 4 0
      (sampleTicket "T-2" "Ops" "B" none) ["Dana", "Eve", "Eve", "Dana"] 2
      "Dana" "Eve" rfl rfl (by decide) (by decide) (by decide) (by decide)
      (by decide) (by decide)⟩

/-- The reasoning merge preserves length. -/
theorem addConsensusReasoning_length
    (consensusResults : List AssignmentRecommendation)
    (reasoningCall : Option (List (String × String))) :
    (addConsensusReasoning consensusResults reasoningCall).length
      = consensusResults.length := by
  cases reasoningCall with
  | none => rfl
  | some reasonings => simp [addConsensusReasoning]

/-- On the at-least-one-valid-trial path, the consensus engine aggregates
the valid trials over their own count and (when verbose) runs one reasoning
call. -/
theorem generateConsensus_eq_of_valid (tickets : List GroomingTicket)
    (profiles : List EngineerProfile) (verbose : Bool)
    (epicSignals : List EpicContinuitySignal)
    (outcomes : List TrialOutcome)
    (fallbackCall : Except Unit (Option (List ParsedItem)))
    (reasoningCall : Option (List (String × String)))
    (hne : tickets ≠ [])
    (hvalid : validTrialsOf tickets outcomes ≠ []) :
    generateConsensusRecommendations tickets profiles verbose epicSignals
        outcomes fallbackCall reasoningCall
      = (Except.ok
          (if verbose then
            addConsensusReasoning
              (aggregateTrialResults tickets (validTrialsOf tickets outcomes)
                (validTrialsOf tickets outcomes).length) reasoningCall
          else
            aggregateTrialResults tickets (validTrialsOf tickets outcomes)
              (validTrialsOf tickets outcomes).length),
        outcomes.length + if verbose then 1 else 0) := by
  have h0 : (tickets.length == 0) = false := length_beq_zero_eq_false hne
  have h1 : ((validTrialsOf tickets outcomes).length == 0) = false :=
    length_beq_zero_eq_false hvalid
  simp only [generateConsensusRecommendations, h0, h1, Bool.false_eq_true,
    if_false]
  cases verbose <;> simp

/-- Claim C5: whenever at least one trial is valid, the engine returns one
recommendation per ticket whose confidence string is
winnerVotes-over-the-number-of-VALID-trials (the filtered count, not the
requested trial count). -/
theorem claim_C5 (ticketsToGroom : List GroomingTicket)
    (engineerProfiles : List EngineerProfile) (verbose : Bool)
    (epicSignals : List EpicContinuitySignal)
    (trialOutcomes : List TrialOutcome)
    (fallbackCall : Except Unit (Option (List ParsedItem)))
    (reasoningCall : Option (List (String × String)))
    (hne : ticketsToGroom ≠ [])
    (hvalid : validTrialsOf ticketsToGroom trialOutcomes ≠ []) :
    ∃ res, (generateConsensusRecommendations ticketsToGroom engineerProfiles
          verbose epicSignals trialOutcomes fallbackCall reasoningCall).1
        = Except.ok res
      ∧ res.length = ticketsToGroom.length
      ∧ res.map (fun r => r.confidence)
        = ticketsToGroom.map (fun t => some
            (toString (pickWinner (tallyVotes t.ticketKey
                (validTrialsOf ticketsToGroom trialOutcomes))).2
              ++ "/"
              ++ toString (validTrialsOf ticketsToGroom
                  trialOutcomes).length)) := by
  rw [generateConsensus_eq_of_valid ticketsToGroom engineerProfiles verbose
    epicSignals trialOutcomes fallbackCall reasoningCall hne hvalid]
  cases verbose
  · refine ⟨aggregateTrialResults ticketsToGroom
      (validTrialsOf ticketsToGroom trialOutcomes)
      (validTrialsOf ticketsToGroom trialOutcomes).length, rfl, ?_, ?_⟩
    · simp [aggregateTrialResults]
    · unfold aggregateTrialResults
      rw [List.map_map]
      rfl
  · refine ⟨addConsensusReasoning
      (aggregateTrialResults ticketsToGroom
        (validTrialsOf ticketsToGroom trialOutcomes)
        (validTrialsOf ticketsToGroom trialOutcomes).length)
      reasoningCall, rfl, ?_, ?_⟩
    · rw [addConsensusReasoning_length]
      simp [aggregateTrialResults]
    · rw [addConsensusReasoning_confidence]
      unfold aggregateTrialResults
      rw [List.map_map]
      rfl

/-- Witness for C5: one valid trial out of one, voting Alice for T-1;
confidence is rendered over the single valid trial. -/
theorem claim_C5_witness :
    ([sampleTicket "T-1" "Ops" "A" none] : List GroomingTicket) ≠ []
      ∧ validTrialsOf [sampleTicket "T-1" "Ops" "A" none]
          [TrialOutcome.response (some [sampleItem "T-1" "Alice"])] ≠ []
      ∧ ∃ res, (generateConsensusRecommendations
            [sampleTicket "T-1" "Ops" "A" none] [] false []
            [TrialOutcome.response (some [sampleItem "T-1" "Alice"])]
            (Except.ok none) none).1
          = Except.ok res
        ∧ res.length = ([sampleTicket "T-1" "Ops" "A" none]
            : List GroomingTicket).length
        ∧ res.map (fun r => r.confidence)
          = ([sampleTicket "T-1" "Ops" "A" none]
              : List GroomingTicket).map (fun t => some
              (toString (pickWinner (tallyVotes t.ticketKey
                  (validTrialsOf [sampleTicket "T-1" "Ops" "A" none]
                    [TrialOutcome.response
                      (some [sampleItem "T-1" "Alice"])]))).2
                ++ "/"
                ++ toString (validTrialsOf
                    [sampleTicket "T-1" "Ops" "A" none]
                    [TrialOutcome.response
                      (some [sampleItem "T-1" "Alice"])]).length)) :=
  ⟨by decide, by decide,
    claim_C5 [sampleTicket "T-1" "Ops" "A" none] [] false []
      [TrialOutcome.response (some [sampleItem "T-1" "Alice"])]
      (Except.ok none) none (by decide) (by decide)⟩

/-- Claim C6 as frozen is FALSE on the code: when all trials fail, the
fallback single call's result is returned as-is, and nothing pads it to one
recommendation per ticket — a fallback response parsing to the empty JSON
array yields ZERO recommendations for one input ticket. -/
theorem claim_C6_counterexample :
    generateConsensusRecommendations [sampleTicket "T-1" "Ops" "A" none]
        [sampleEngineer "Alice" []] false [] [TrialOutcome.failure]
        (Except.ok (some [])) none
      = (Except.ok [], 2)
      ∧ ([] : List AssignmentRecommendation).length
        ≠ [sampleTicket "T-1" "Ops" "A" none].length :=
  ⟨rfl, by decide⟩

/-- Claim C6 amended: when every trial fails or returns empty (and the
ticket list is non-empty), the engine performs exactly one additional
oracle call through `generateAssignmentRecommendations` with the caller's
requested verbosity and returns its result directly — bypassing
aggregation — with confidence absent on every returned recommendation.
The returned set has one recommendation per parsed fallback-response item
(exactly one per input ticket only when the fallback response is
unparseable), not a guaranteed one per ticket. -/
theorem claim_C6 (tickets : List GroomingTicket)
    (profiles : List EngineerProfile) (verbose : Bool)
    (epicSignals : List EpicContinuitySignal)
    (outcomes : List TrialOutcome)
    (fallbackCall : Except Unit (Option (List ParsedItem)))
    (reasoningCall : Option (List (String × String)))
    (hne : tickets ≠ [])
    (hfail : ∀ o ∈ outcomes, runTrial tickets o = []) :
    generateConsensusRecommendations tickets profiles verbose epicSignals
        outcomes fallbackCall reasoningCall
      = ((generateAssignmentRecommendations tickets profiles verbose
            epicSignals fallbackCall).1, outcomes.length + 1)
      ∧ (generateAssignmentRecommendations tickets profiles verbose
          epicSignals fallbackCall).2 = 1
      ∧ ∀ recs, (generateAssignmentRecommendations tickets profiles verbose
            epicSignals fallbackCall).1 = Except.ok recs →
          (∀ r ∈ recs, r.confidence = none)
            ∧ (fallbackCall = Except.ok none → recs.length = tickets.length)
            ∧ (∀ items, fallbackCall = Except.ok (some items) →
                recs.length = items.length) := by
  have h0 : (tickets.length == 0) = false := length_beq_zero_eq_false hne
  have hvempty : validTrialsOf tickets outcomes = [] := by
    rw [validTrialsOf]
    apply List.filter_eq_nil_iff.mpr
    intro a ha
    obtain ⟨o, ho, rfl⟩ := List.mem_map.mp ha
    rw [hfail o ho]
    simp
  have hcall2 : (generateAssignmentRecommendations tickets profiles verbose
      epicSignals fallbackCall).2 = 1 := by
    simp only [generateAssignmentRecommendations, h0, Bool.false_eq_true,
      if_false]
    cases fallbackCall <;> rfl
  refine ⟨?_, hcall2, ?_⟩
  · simp only [generateConsensusRecommendations, h0, Bool.false_eq_true,
      if_false, hvempty]
    simp [hcall2]
  · intro recs hrecs
    simp only [generateAssignmentRecommendations, h0, Bool.false_eq_true,
      if_false] at hrecs
    cases fallbackCall with
    | error e => exact absurd hrecs (by simp)
    | ok r =>
      have hrecs2 : Except.ok (parseAssignmentResponse r tickets verbose)
          = Except.ok recs := hrecs
      injection hrecs2 with hrecs3
      subst hrecs3
      refine ⟨?_, ?_, ?_⟩
      · intro x hx
        cases r with
        | none =>
          simp only [parseAssignmentResponse] at hx
          obtain ⟨t, ht, rfl⟩ := List.mem_map.mp hx
          rfl
        | some items =>
          simp only [parseAssignmentResponse] at hx
          obtain ⟨it, hit, rfl⟩ := List.mem_map.mp hx
          rfl
      · intro hfb
        injection hfb with hr
        subst hr
        simp [parseAssignmentResponse]
      · intro items hfb
        injection hfb with hr
        subst hr
        simp [parseAssignmentResponse]

/-- Witness for C6: one failed trial, non-empty ticket list, fallback call
parsing to one item. -/
theorem claim_C6_witness :
    ([sampleTicket "T-1" "Ops" "A" none] : List GroomingTicket) ≠ []
      ∧ (∀ o ∈ ([TrialOutcome.failure] : List TrialOutcome),
          runTrial [sampleTicket "T-1" "Ops" "A" none] o = [])
      ∧ (generateConsensusRecommendations [sampleTicket "T-1" "Ops" "A" none]
            [sampleEngineer "Alice" []] true [] [TrialOutcome.failure]
            (Except.ok (some [sampleItem "T-1" "Alice"])) none
          = ((generateAssignmentRecommendations
              [sampleTicket "T-1" "Ops" "A" none]
              [sampleEngineer "Alice" []] true []
              (Except.ok (some [sampleItem "T-1" "Alice"]))).1,
            ([TrialOutcome.failure] : List TrialOutcome).length + 1)
        ∧ (generateAssignmentRecommendations
            [sampleTicket "T-1" "Ops" "A" none] [sampleEngineer "Alice" []]
            true [] (Except.ok (some [sampleItem "T-1" "Alice"]))).2 = 1
        ∧ ∀ recs, (generateAssignmentRecommendations
              [sampleTicket "T-1" "Ops" "A" none]
              [sampleEngineer "Alice" []] true []
              (Except.ok (some [sampleItem "T-1" "Alice"]))).1
            = Except.ok recs →
            (∀ r ∈ recs, r.confidence = none)
              ∧ ((Except.ok (some [sampleItem "T-1" "Alice"])
                    : Except Unit (Option (List ParsedItem)))
                  = Except.ok none →
                  recs.length = ([sampleTicket "T-1" "Ops" "A" none]
                    : List GroomingTicket).length)
              ∧ (∀ items, (Except.ok (some [sampleItem "T-1" "Alice"])
                    : Except Unit (Option (List ParsedItem)))
                  = Except.ok (some items) →
                  recs.length = items.length)) :=
  ⟨by decide, by decide,
    claim_C6 [sampleTicket "T-1" "Ops" "A" none] [sampleEngineer "Alice" []]
      true [] [TrialOutcome.failure]
      (Except.ok (some [sampleItem "T-1" "Alice"])) none
      (by decide) (by decide)⟩

/-- Membership in one ticket's engineer sweep. -/
theorem mem_signalsForTicket {profiles : List EngineerProfile}
    {ticket : GroomingTicket} {s : EpicContinuitySignal} :
    s ∈ signalsForTicket profiles ticket ↔
      ∃ e ∈ profiles,
        0 < (siblingTicketsOf e (ticket.parent.getD "")
            ticket.ticketKey).length
          ∧ s = mkSignal ticket e := by
  unfold signalsForTicket
  rw [List.mem_filterMap]
  constructor
  · rintro ⟨e, he, hsome⟩
    by_cases hc : 0 < (siblingTicketsOf e (ticket.parent.getD "")
        ticket.ticketKey).length
    · rw [if_pos hc] at hsome
      exact ⟨e, he, hc, (Option.some_inj.mp hsome).symm⟩
    · rw [if_neg hc] at hsome
      cases hsome
  · rintro ⟨e, he, hc, rfl⟩
    exact ⟨e, he, by rw [if_pos hc]⟩

/-- Membership in the full signal list. -/
theorem mem_buildEpicContinuitySignals {tickets : List GroomingTicket}
    {profiles : List EngineerProfile} {s : EpicContinuitySignal} :
    s ∈ buildEpicContinuitySignals tickets profiles ↔
      ∃ t ∈ tickets, strTruthy t.parent = true
        ∧ ∃ e ∈ profiles,
          0 < (siblingTicketsOf e (t.parent.getD "") t.ticketKey).length
            ∧ s = mkSignal t e := by
  unfold buildEpicContinuitySignals
  rw [List.mem_flatten]
  constructor
  · rintro ⟨l, hl, hs⟩
    obtain ⟨t, ht, rfl⟩ := List.mem_map.mp hl
    have ht' := List.mem_filter.mp ht
    obtain ⟨e, he, hc, rfl⟩ := mem_signalsForTicket.mp hs
    exact ⟨t, ht'.1, ht'.2, e, he, hc, rfl⟩
  · rintro ⟨t, ht, htru, e, he, hc, rfl⟩
    refine ⟨signalsForTicket profiles t, ?_, ?_⟩
    · exact List.mem_map_of_mem _ (List.mem_filter.mpr ⟨ht, htru⟩)
    · exact mem_signalsForTicket.mpr ⟨e, he, hc, rfl⟩

/-- A ticket whose key differs contributes no matching signal. -/
theorem countP_signalsForTicket_ne (profiles : List EngineerProfile)
    (ticket : GroomingTicket) (tk en : String)
    (h : ticket.ticketKey ≠ tk) :
    List.countP (fun s => s.ticketKey == tk && s.engineerName == en)
      (signalsForTicket profiles ticket) = 0 := by
  apply List.countP_eq_zero.mpr
  intro s hs
  obtain ⟨e, he, hc, rfl⟩ := mem_signalsForTicket.mp hs
  simp [mkSignal, h]

/-- Absent engineer names contribute no matching signal. -/
theorem countP_signalsForTicket_noname (profiles : List EngineerProfile)
    (ticket : GroomingTicket) (tk en : String)
    (h : en ∉ profiles.map (fun e => e.name)) :
    List.countP (fun s => s.ticketKey == tk && s.engineerName == en)
      (signalsForTicket profiles ticket) = 0 := by
  apply List.countP_eq_zero.mpr
  intro s hs
  obtain ⟨e, he, hc, rfl⟩ := mem_signalsForTicket.mp hs
  have hne : e.name ≠ en := fun heq => h (heq ▸ List.mem_map_of_mem _ he)
  simp [mkSignal, hne]

/-- One ticket's sweep contributes exactly one matching signal for engineer
`E` iff `E` has at least one sibling, when engineer names are distinct. -/
theorem countP_signalsForTicket_eq (ticket : GroomingTicket)
    (E : EngineerProfile) :
    ∀ profiles : List EngineerProfile,
      (profiles.map (fun e => e.name)).Nodup → E ∈ profiles →
      List.countP (fun s => s.ticketKey == ticket.ticketKey
          && s.engineerName == E.name)
        (signalsForTicket profiles ticket)
      = if 0 < (siblingTicketsOf E (ticket.parent.getD "")
          ticket.ticketKey).length then 1 else 0 := by
  intro profiles
  induction profiles with
  | nil => intro _ hE; cases hE
  | cons e rest ih =>
    intro hnames hE
    have hnames' : (rest.map (fun x => x.name)).Nodup
        ∧ e.name ∉ rest.map (fun x => x.name) := by
      rw [List.map_cons, List.nodup_cons] at hnames
      exact ⟨hnames.2, hnames.1⟩
    unfold signalsForTicket
    rw [List.filterMap_cons]
    rcases List.mem_cons.mp hE with rfl | hErest
    · by_cases hc : 0 < (siblingTicketsOf E (ticket.parent.getD "")
          ticket.ticketKey).length
      · simp only [if_pos hc]
        rw [List.countP_cons]
        have htail : List.countP (fun s => s.ticketKey == ticket.ticketKey
            && s.engineerName == E.name) (signalsForTicket rest ticket) = 0 :=
          countP_signalsForTicket_noname rest ticket _ _ hnames'.2
        have hhead : ((mkSignal ticket E).ticketKey == ticket.ticketKey
            && (mkSignal ticket E).engineerName == E.name) = true := by
          simp [mkSignal]
        unfold signalsForTicket at htail
        rw [htail, hhead]
        simp
      · simp only [if_neg hc]
        exact countP_signalsForTicket_noname rest ticket _ _ hnames'.2
    · have hne : e.name ≠ E.name := fun heq =>
        hnames'.2 (heq ▸ List.mem_map_of_mem _ hErest)
      by_cases hc : 0 < (siblingTicketsOf e (ticket.parent.getD "")
          ticket.ticketKey).length
      · simp only [if_pos hc]
        rw [List.countP_cons]
        have hhead : ((mkSignal ticket e).ticketKey == ticket.ticketKey
            && (mkSignal ticket e).engineerName == E.name) = false := by
          simp [mkSignal, hne]
        rw [hhead]
        have := ih hnames'.1 hErest
        unfold signalsForTicket at this
        rw [this]
        simp
      · simp only [if_neg hc]
        have := ih hnames'.1 hErest
        unfold signalsForTicket at this
        rw [this]

/-- No ticket with key `tk` means no matching signal. -/
theorem countP_build_nokey (profiles : List EngineerProfile)
    (tk en : String) (tickets : List GroomingTicket)
    (h : tk ∉ tickets.map (fun t => t.ticketKey)) :
    List.countP (fun s => s.ticketKey == tk && s.engineerName == en)
      (buildEpicContinuitySignals tickets profiles) = 0 := by
  apply List.countP_eq_zero.mpr
  intro s hs
  obtain ⟨t, ht, htru, e, he, hc, rfl⟩ :=
    mem_buildEpicContinuitySignals.mp hs
  have hne : t.ticketKey ≠ tk := fun heq =>
    h (heq ▸ List.mem_map_of_mem _ ht)
  simp [mkSignal, hne]

/-- The signal list of a cons splits into the head ticket's sweep and the
rest. -/
theorem build_cons (t : GroomingTicket) (rest : List GroomingTicket)
    (profiles : List EngineerProfile) :
    buildEpicContinuitySignals (t :: rest) profiles
      = (if strTruthy t.parent = true then signalsForTicket profiles t
          else [])
        ++ buildEpicContinuitySignals rest profiles := by
  unfold buildEpicContinuitySignals
  by_cases h : strTruthy t.parent = true <;>
    simp [List.filter_cons, h]

/-- Exactly-one counting over the whole ticket list. -/
theorem countP_build (T : GroomingTicket) (E : EngineerProfile)
    (profiles : List EngineerProfile)
    (hnames : (profiles.map (fun e => e.name)).Nodup) (hE : E ∈ profiles)
    (htru : strTruthy T.parent = true) :
    ∀ tickets : List GroomingTicket,
      (tickets.map (fun t => t.ticketKey)).Nodup → T ∈ tickets →
      List.countP (fun s => s.ticketKey == T.ticketKey
          && s.engineerName == E.name)
        (buildEpicContinuitySignals tickets profiles)
      = if 0 < (siblingTicketsOf E (T.parent.getD "") T.ticketKey).length
        then 1 else 0 := by
  intro tickets
  induction tickets with
  | nil => intro _ hT; cases hT
  | cons t rest ih =>
    intro hkeys hT
    have hkeys' : (rest.map (fun x => x.ticketKey)).Nodup
        ∧ t.ticketKey ∉ rest.map (fun x => x.ticketKey) := by
      rw [List.map_cons, List.nodup_cons] at hkeys
      exact ⟨hkeys.2, hkeys.1⟩
    rw [build_cons, List.countP_append]
    rcases List.mem_cons.mp hT with rfl | hTrest
    · rw [if_pos htru]
      rw [countP_build_nokey profiles _ _ rest hkeys'.2,
        countP_signalsForTicket_eq T E profiles hnames hE, Nat.add_zero]
    · have hne : t.ticketKey ≠ T.ticketKey := fun heq =>
        hkeys'.2 (heq ▸ List.mem_map_of_mem _ hTrest)
      have hhead : List.countP (fun s => s.ticketKey == T.ticketKey
          && s.engineerName == E.name)
          (if strTruthy t.parent = true then signalsForTicket profiles t
            else []) = 0 := by
        by_cases h : strTruthy t.parent = true
        · rw [if_pos h]
          exact countP_signalsForTicket_ne profiles t _ _ hne
        · rw [if_neg h]
          rfl
      rw [hhead, ih hkeys'.1 hTrest, Nat.zero_add]

/-- Claim C8 as frozen is FALSE on the code: the builder filters tickets by
JavaScript truthiness of `parent`, so a non-null but EMPTY parent key is
dropped even when an engineer has matching sibling records — no signal is
emitted although the sibling count is 1. -/
theorem claim_C8_counterexample :
    (sampleTicket "T-5" "Ops" "A" (some "")).parent = some ""
      ∧ 0 < (siblingTicketsOf
          (sampleEngineer "Alice" [sampleIssue "S-1" (some "")])
          "" "T-5").length
      ∧ buildEpicContinuitySignals [sampleTicket "T-5" "Ops" "A" (some "")]
          [sampleEngineer "Alice" [sampleIssue "S-1" (some "")]] = [] :=
  ⟨rfl, by decide, rfl⟩

/-- Claim C8 amended: for every grooming ticket `T` with a non-null,
NON-EMPTY parent key `P` and every engineer profile `E` (ticket keys and
engineer names being duplicate-free), the builder counts `E`'s records with
parent `P` and identifier different from `T`'s, emits exactly one signal
for the pair iff that count is at least one, the signal carries that count,
the epic key `P`, `T`'s parent summary and at most 3 example sibling
identifiers (the first ones in history order); and no signal is ever
emitted for a ticket with a null parent. -/
theorem claim_C8 (tickets : List GroomingTicket)
    (profiles : List EngineerProfile) (T : GroomingTicket)
    (E : EngineerProfile) (P : String)
    (hkeys : (tickets.map (fun t => t.ticketKey)).Nodup)
    (hnames : (profiles.map (fun e => e.name)).Nodup)
    (hT : T ∈ tickets) (hE : E ∈ profiles)
    (hp : T.parent = some P) (hP : P ≠ "") :
    (List.countP (fun s => s.ticketKey == T.ticketKey
          && s.engineerName == E.name)
        (buildEpicContinuitySignals tickets profiles)
      = if 0 < (siblingTicketsOf E P T.ticketKey).length then 1 else 0)
      ∧ (∀ s ∈ buildEpicContinuitySignals tickets profiles,
          s.ticketKey = T.ticketKey → s.engineerName = E.name →
            s.epicKey = P ∧ s.epicSummary = T.parentSummary
              ∧ s.siblingCount = (siblingTicketsOf E P T.ticketKey).length
              ∧ s.siblingTickets
                = ((siblingTicketsOf E P T.ticketKey).take 3).map
                    (fun x => x.ticketId)
              ∧ s.siblingTickets.length ≤ 3)
      ∧ (∀ U ∈ tickets, U.parent = none →
          ∀ s ∈ buildEpicContinuitySignals tickets profiles,
            s.ticketKey ≠ U.ticketKey) := by
  have htru : strTruthy T.parent = true := by
    rw [hp]
    simp [strTruthy, hP]
  have hgetD : T.parent.getD "" = P := by rw [hp]; rfl
  refine ⟨?_, ?_, ?_⟩
  · have h := countP_build T E profiles hnames hE htru tickets hkeys hT
    rwa [hgetD] at h
  · intro s hs hstk hsen
    obtain ⟨t, ht, htru', e, he, hc, rfl⟩ :=
      mem_buildEpicContinuitySignals.mp hs
    have htT : t = T := List.inj_on_of_nodup_map hkeys ht hT hstk
    have heE : e = E := List.inj_on_of_nodup_map hnames he hE hsen
    subst htT
    subst heE
    refine ⟨hgetD, rfl, ?_, ?_, ?_⟩
    · show (siblingTicketsOf e (t.parent.getD "") t.ticketKey).length = _
      rw [hgetD]
    · show ((siblingTicketsOf e (t.parent.getD "") t.ticketKey).take 3).map
          (fun x => x.ticketId) = _
      rw [hgetD]
    · show (((siblingTicketsOf e (t.parent.getD "") t.ticketKey).take 3).map
          (fun x => x.ticketId)).length ≤ 3
      rw [List.length_map, List.length_take]
      omega
  · intro U hU hUp s hs
    obtain ⟨t, ht, htru', e, he, hc, rfl⟩ :=
      mem_buildEpicContinuitySignals.mp hs
    intro hstk
    have htU : t = U := List.inj_on_of_nodup_map hkeys ht hU hstk
    subst htU
    rw [hUp] at htru'
    exact absurd htru' (by simp [strTruthy])

/-- Witness for C8: Alice has two historical tickets under EPIC-1 and
grooming ticket T-5 has parent EPIC-1; exactly one signal with sibling
count 2 is emitted. -/
theorem claim_C8_witness :
    (([sampleTicket "T-5" "Ops" "A" (some "EPIC-1")]
        : List GroomingTicket).map (fun t => t.ticketKey)).Nodup
      ∧ (sampleTicket "T-5" "Ops" "A" (some "EPIC-1")).parent
        = some "EPIC-1"
      ∧ ("EPIC-1" : String) ≠ ""
      ∧ ((List.countP (fun s => s.ticketKey
            == (sampleTicket "T-5" "Ops" "A" (some "EPIC-1")).ticketKey
            && s.engineerName == (sampleEngineer "Alice"
              [sampleIssue "S-1" (some "EPIC-1"),
                sampleIssue "S-2" (some "EPIC-1")]).name)
          (buildEpicContinuitySignals
            [sampleTicket "T-5" "Ops" "A" (some "EPIC-1")]
            [sampleEngineer "Alice" [sampleIssue "S-1" (some "EPIC-1"),
              sampleIssue "S-2" (some "EPIC-1")]])
          = if 0 < (siblingTicketsOf (sampleEngineer "Alice"
              [sampleIssue "S-1" (some "EPIC-1"),
                sampleIssue "S-2" (some "EPIC-1")]) "EPIC-1" "T-5").length
            then 1 else 0)
        ∧ (∀ s ∈ buildEpicContinuitySignals
              [sampleTicket "T-5" "Ops" "A" (some "EPIC-1")]
              [sampleEngineer "Alice" [sampleIssue "S-1" (some "EPIC-1"),
                sampleIssue "S-2" (some "EPIC-1")]],
            s.ticketKey = (sampleTicket "T-5" "Ops" "A"
                (some "EPIC-1")).ticketKey →
            s.engineerName = (sampleEngineer "Alice"
                [sampleIssue "S-1" (some "EPIC-1"),
                  sampleIssue "S-2" (some "EPIC-1")]).name →
              s.epicKey = "EPIC-1"
                ∧ s.epicSummary = (sampleTicket "T-5" "Ops" "A"
                    (some "EPIC-1")).parentSummary
                ∧ s.siblingCount = (siblingTicketsOf (sampleEngineer "Alice"
                    [sampleIssue "S-1" (some "EPIC-1"),
                      sampleIssue "S-2" (some "EPIC-1")])
                    "EPIC-1" "T-5").length
                ∧ s.siblingTickets = ((siblingTicketsOf
                    (sampleEngineer "Alice"
                      [sampleIssue "S-1" (some "EPIC-1"),
                        sampleIssue "S-2" (some "EPIC-1")])
                    "EPIC-1" "T-5").take 3).map (fun x => x.ticketId)
                ∧ s.siblingTickets.length ≤ 3)
        ∧ (∀ U ∈ ([sampleTicket "T-5" "Ops" "A" (some "EPIC-1")]
              : List GroomingTicket), U.parent = none →
            ∀ s ∈ buildEpicContinuitySignals
                [sampleTicket "T-5" "Ops" "A" (some "EPIC-1")]
                [sampleEngineer "Alice" [sampleIssue "S-1" (some "EPIC-1"),
                  sampleIssue "S-2" (some "EPIC-1")]],
              s.ticketKey ≠ U.ticketKey)) :=
  ⟨by decide, rfl, by decide,
    claim_C8 [sampleTicket "T-5" "Ops" "A" (some "EPIC-1")]
      [sampleEngineer "Alice" [sampleIssue "S-1" (some "EPIC-1"),
        sampleIssue "S-2" (some "EPIC-1")]]
      (sampleTicket "T-5" "Ops" "A" (some "EPIC-1"))
      (sampleEngineer "Alice" [sampleIssue "S-1" (some "EPIC-1"),
        sampleIssue "S-2" (some "EPIC-1")])
      "EPIC-1" (by decide) (by decide) (by decide) (by decide) rfl
      (by decide)⟩

end WorkTracking
